import Mathlib

/-!
Verification of the Adaptive Loan Payment Scheduler (src/loanscheduler.cpp).

The C++ program keeps a vector of loans, scores each loan with a pure
priority function (`computePriority`, built on `computeUrgency` and `clamp`),
and maintains a max-heap of (score, loan) pairs that is rebuilt from scratch
after every mutation.  Money amounts (C++ `double`) are modelled as exact
rationals; the score, which uses the transcendental `log1p`, is modelled as a
real number.  The allocation loop of `allocatePayment`, whose termination is
one of the properties under study, is modelled with an explicit fuel
parameter: a result `outOfFuel` for every fuel value means the loop never
finishes.
-/

/-- The loan record of the source (struct Loan).  `principal` is the current
outstanding amount, `daysUntilDue` a signed day count. -/
structure Loan where
  id : ℤ
  name : String
  principal : ℚ
  annualRate : ℚ
  daysUntilDue : ℤ
  lateFee : ℚ
  creditFactor : ℚ
  variableRate : Bool
  inflationSensitivity : ℚ
deriving DecidableEq

/-- The settlement epsilon of the source (the literal 1e-6): a loan whose
principal is at or below this bound counts as settled. -/
def eps : ℚ := 1 / 1000000

/-- clamp(v, lo, hi) = max(lo, min(v, hi)) from the source. -/
def clamp (v lo hi : ℚ) : ℚ := max lo (min v hi)

/-- computeUrgency(days): 1.0 for days <= 0, otherwise 1 / (1 + log1p(days)),
where log1p(days) = log (1 + days). -/
noncomputable def computeUrgency (days : ℤ) : ℝ :=
  if days ≤ 0 then 1 else 1 / (1 + Real.log (1 + (days : ℝ)))

/-- computePriority(L, inflationRate) from the source: the sentinel -1e15 for
settled loans, otherwise the weighted sum of interest impact, penalty weight,
credit impact, urgency and inflation adjustment, with the whole sum multiplied
by 1.25 when the due date is at most 5 days away. -/
noncomputable def computePriority (L : Loan) (inflationRate : ℚ) : ℝ :=
  if L.principal ≤ eps then -1e15
  else
    let urgency : ℝ := computeUrgency L.daysUntilDue
    let interestImpact : ℝ := ((L.annualRate : ℝ) / 100) * ((L.principal : ℝ) / 1000)
    let perRupeePenalty : ℚ := clamp (L.lateFee / max 1 L.principal) 0 5000
    let penaltyWeight : ℝ := (perRupeePenalty : ℝ) * 10000 * urgency
    let creditImpact : ℝ := (L.creditFactor : ℝ) * 100
    let inflationAdj : ℝ :=
      if L.variableRate then
        -(inflationRate : ℝ) * (L.inflationSensitivity : ℝ) * ((L.principal : ℝ) / 1000)
      else 0
    let priority : ℝ :=
      interestImpact * 1.5 + penaltyWeight * 0.8 + creditImpact * 0.8
        + urgency * 5000 + inflationAdj
    if L.daysUntilDue ≤ 5 then priority * 1.25 else priority

/-- The scoring formula exactly as the specification words it (section 4.1):
weights written on the left, short-term boost applied to the whole weighted
sum afterwards.  Used only to compare against `computePriority`. -/
noncomputable def specPriority (L : Loan) (inflationRate : ℚ) : ℝ :=
  let urgency : ℝ := computeUrgency L.daysUntilDue
  let interestImpact : ℝ := ((L.annualRate : ℝ) / 100) * ((L.principal : ℝ) / 1000)
  let penaltyWeight : ℝ :=
    (clamp (L.lateFee / max 1 L.principal) 0 5000 : ℚ) * 10000 * urgency
  let creditImpact : ℝ := (L.creditFactor : ℝ) * 100
  let inflationAdjustment : ℝ :=
    if L.variableRate then
      -(inflationRate : ℝ) * (L.inflationSensitivity : ℝ) * ((L.principal : ℝ) / 1000)
    else 0
  let total : ℝ :=
    1.5 * interestImpact + 0.8 * penaltyWeight + 0.8 * creditImpact
      + 5000 * urgency + inflationAdjustment
  if L.daysUntilDue ≤ 5 then 1.25 * total else total

/-- A loan as built by the interactive shell in main: the constructor call
passes id, name, principal, rate, days, fee, credit factor and the
variable-rate flag, so the constructor default inflationSensitivity = 0.0
applies. -/
def mkShellLoan (id : ℤ) (name : String) (principal rate : ℚ) (days : ℤ)
    (fee credit : ℚ) (varFlag : Bool) : Loan :=
  { id := id, name := name, principal := principal, annualRate := rate,
    daysUntilDue := days, lateFee := fee, creditFactor := credit,
    variableRate := varFlag, inflationSensitivity := 0 }

/-- Scheduler state: the master loan list plus the session inflation rate. -/
structure SchedState where
  loans : List Loan
  inflationRate : ℚ
deriving DecidableEq

/-- Outcome of displayPriorities: the empty-collection message, the
all-repaid message, or the listing of (score, loan) rows that were printed. -/
inductive DisplayResult where
  | noLoans
  | allSettled
  | shown (entries : List (ℝ × Loan))

/-- The heap contents in pop order: every loan paired with its score, sorted
by descending score (ties in an unspecified but fixed order, as for the heap
of the source). -/
noncomputable def heapList (s : SchedState) : List (ℝ × Loan) :=
  (s.loans.map (fun L => (computePriority L s.inflationRate, L))).mergeSort
    (fun a b => decide (b.1 ≤ a.1))

/-- The rows that the display loop actually prints: the heap drained in
order, with every row whose principal is at or below the epsilon skipped. -/
noncomputable def displayEntries (s : SchedState) : List (ℝ × Loan) :=
  (heapList s).filter (fun e => decide (¬ e.2.principal ≤ eps))

/-- displayPriorities(): empty collection reported first; otherwise the heap
is drained in score order, rows with settled principal are skipped, and if
nothing was shown the all-repaid message is produced. -/
noncomputable def displayPriorities (s : SchedState) : DisplayResult :=
  if s.loans = [] then .noLoans
  else if (displayEntries s).isEmpty then .allSettled
  else .shown (displayEntries s)

/-- One printed line of the allocation loop: loan name, amount paid to it in
this step, and its remaining principal. -/
structure TraceEntry where
  loanName : String
  amountPaid : ℚ
  remainingPrincipal : ℚ
deriving DecidableEq

/-- Outcome of allocatePayment: the two early-return messages, a completed
run (trace, leftover cash, final master list), or fuel exhaustion of the
modelled loop (trace so far, remaining amount, current master list). -/
inductive AllocResult where
  | noLoans
  | invalidAmount
  | done (trace : List TraceEntry) (leftover : ℚ) (finalLoans : List Loan)
  | outOfFuel (trace : List TraceEntry) (amount : ℚ) (loans : List Loan)
deriving DecidableEq

/-- True exactly on completed runs of the allocation loop. -/
def AllocResult.isDone : AllocResult → Bool
  | .done _ _ _ => true
  | _ => false

/-- The master list carried by the result; the early returns leave the
given list unchanged. -/
def AllocResult.loansOut : AllocResult → List Loan → List Loan
  | .done _ _ fin, _ => fin
  | .outOfFuel _ _ cur, _ => cur
  | _, orig => orig

/-- The write-back of the popped snapshot into the master list: the first
loan with the matching id gets the new principal (the for/break loop of the
source). -/
def updateFirstById : List Loan → ℤ → ℚ → List Loan
  | [], _, _ => []
  | L :: rest, i, p =>
    if L.id = i then { L with principal := p } :: rest
    else L :: updateFirstById rest i p

/-- The while loop of allocatePayment, with fuel.  The loop keeps running
while the amount is positive and the rebuilt heap is non-empty (the heap is
rebuilt from the full master list each iteration, so it is non-empty exactly
when the master list is).  Each iteration pops the highest-scoring loan,
pays min(amount, principal) to it, writes the new principal back by id, and
rebuilds. -/
noncomputable def allocLoop (infl : ℚ) : ℕ → ℚ → List Loan → List TraceEntry → AllocResult
  | 0, amount, loans, trace => .outOfFuel trace.reverse amount loans
  | fuel + 1, amount, loans, trace =>
    if 0 < amount ∧ loans ≠ [] then
      match loans.argmax (fun L => computePriority L infl) with
      | none => .done trace.reverse amount loans
      | some L =>
        allocLoop infl fuel (amount - min amount L.principal)
          (updateFirstById loans L.id (L.principal - min amount L.principal))
          ({ loanName := L.name, amountPaid := min amount L.principal,
             remainingPrincipal := L.principal - min amount L.principal } :: trace)
    else .done trace.reverse amount loans

/-- allocatePayment(amount): empty collection and non-positive amount are
reported without touching state; otherwise the allocation loop runs. -/
noncomputable def allocatePayment (fuel : ℕ) (amount : ℚ) (s : SchedState) : AllocResult :=
  if s.loans = [] then .noLoans
  else if amount ≤ 0 then .invalidAmount
  else allocLoop s.inflationRate fuel amount s.loans []

/-- Total amount paid across the entries of a trace. -/
def sumPaid (tr : List TraceEntry) : ℚ := (tr.map (·.amountPaid)).sum

/-- Outcome of simulateDays: the zero-days no-op (state returned unchanged)
or the updated state together with the ranking display that follows. -/
inductive SimResult where
  | noOp (s : SchedState)
  | updated (s : SchedState) (d : DisplayResult)

/-- The scheduler state carried by a simulateDays outcome. -/
def SimResult.state : SimResult → SchedState
  | .noOp s => s
  | .updated s _ => s

/-- simulateDays(days): zero days is the reported no-op; otherwise days is
subtracted from every daysUntilDue, and the new ranking is displayed. -/
noncomputable def simulateDays (days : ℤ) (s : SchedState) : SimResult :=
  if days = 0 then .noOp s
  else
    let s' : SchedState :=
      { s with loans := s.loans.map fun L => { L with daysUntilDue := L.daysUntilDue - days } }
    .updated s' (displayPriorities s')

/-! Concrete inputs used to evaluate the allocation loop. -/

/-- A single active loan with principal 100. -/
def loanOne : Loan :=
  { id := 1, name := "A", principal := 100, annualRate := 12, daysUntilDue := 30,
    lateFee := 0, creditFactor := 0, variableRate := false, inflationSensitivity := 0 }

/-- Scheduler holding just `loanOne`, at the default inflation rate 0.05. -/
def sOne : SchedState := { loans := [loanOne], inflationRate := 1 / 20 }

/-- A loan already settled (principal 0). -/
def settledLoan : Loan :=
  { id := 7, name := "S", principal := 0, annualRate := 10, daysUntilDue := 3,
    lateFee := 5, creditFactor := 1/2, variableRate := false, inflationSensitivity := 0 }

/-- Scheduler holding just `settledLoan`. -/
def sSettled : SchedState := { loans := [settledLoan], inflationRate := 1 / 20 }

/-! Helper lemmas about the scoring function. -/

/-- The urgency score is strictly positive for every day count. -/
theorem computeUrgency_pos (d : ℤ) : 0 < computeUrgency d := by
  unfold computeUrgency
  split
  · norm_num
  · rename_i h
    have hd : (1 : ℝ) ≤ 1 + (d : ℝ) := by
      have : (1 : ℝ) ≤ (d : ℝ) := by exact_mod_cast not_le.mp h
      linarith
    have hlog : 0 ≤ Real.log (1 + (d : ℝ)) := Real.log_nonneg hd
    positivity

/-- On a non-settled loan the priority is the boost factor times the
weighted component sum. -/
theorem computePriority_active (L : Loan) (r : ℚ) (h : ¬ L.principal ≤ eps) :
    computePriority L r =
      (if L.daysUntilDue ≤ 5 then (1.25 : ℝ) else 1) *
        (((L.annualRate : ℝ) / 100) * ((L.principal : ℝ) / 1000) * 1.5
          + ((clamp (L.lateFee / max 1 L.principal) 0 5000 : ℚ) : ℝ) * 10000
              * computeUrgency L.daysUntilDue * 0.8
          + (L.creditFactor : ℝ) * 100 * 0.8
          + computeUrgency L.daysUntilDue * 5000
          + (if L.variableRate then
              -(r : ℝ) * (L.inflationSensitivity : ℝ) * ((L.principal : ℝ) / 1000)
            else 0)) := by
  unfold computePriority
  rw [if_neg h]
  by_cases hd : L.daysUntilDue ≤ 5 <;> simp only [hd, if_true, if_false, ite_true, ite_false] <;> ring

/-- Claim C3: for every non-settled loan the priority score is exactly the
weighted sum 1.5*interestImpact + 0.8*penaltyWeight + 0.8*creditImpact +
5000*urgency + inflationAdjustment of the specification, with the 1.25
short-term boost applied to the whole sum afterwards. -/
theorem priority_matches_spec_formula (L : Loan) (r : ℚ) (h : eps < L.principal) :
    computePriority L r = specPriority L r := by
  rw [computePriority_active L r (not_le.mpr h)]
  unfold specPriority
  by_cases hd : L.daysUntilDue ≤ 5 <;> simp only [hd, if_true, if_false, ite_true, ite_false] <;> ring

theorem priority_matches_spec_formula_witness :
    eps < (mkShellLoan 1 "A" 100 12 30 50 (1/2) false).principal ∧
      computePriority (mkShellLoan 1 "A" 100 12 30 50 (1/2) false) (1/20) =
        specPriority (mkShellLoan 1 "A" 100 12 30 50 (1/2) false) (1/20) :=
  ⟨by norm_num [eps, mkShellLoan],
   priority_matches_spec_formula _ _ (by norm_num [eps, mkShellLoan])⟩

/-- Claim C4: computeUrgency is exactly 1 for every non-positive day count;
for positive day counts it equals 1/(1 + ln(1 + days)), lies strictly
between 0 and 1, and is strictly decreasing in the day count. -/
theorem computeUrgency_spec (d : ℤ) :
    (d ≤ 0 → computeUrgency d = 1)
    ∧ (0 < d → computeUrgency d = 1 / (1 + Real.log (1 + (d : ℝ)))
        ∧ 0 < computeUrgency d ∧ computeUrgency d < 1)
    ∧ (∀ d' : ℤ, 0 < d → d < d' → computeUrgency d' < computeUrgency d) := by
  have key : ∀ e : ℤ, 0 < e →
      computeUrgency e = 1 / (1 + Real.log (1 + (e : ℝ)))
        ∧ 0 < Real.log (1 + (e : ℝ)) := by
    intro e he
    constructor
    · unfold computeUrgency
      rw [if_neg (not_le.mpr he)]
    · apply Real.log_pos
      have : (1 : ℝ) ≤ (e : ℝ) := by exact_mod_cast he
      linarith
  refine ⟨fun h => by unfold computeUrgency; rw [if_pos h], fun h => ?_, fun d' h hlt => ?_⟩
  · obtain ⟨heq, hlog⟩ := key d h
    refine ⟨heq, computeUrgency_pos d, ?_⟩
    rw [heq]
    rw [div_lt_one (by linarith)]
    linarith
  · obtain ⟨heq, hlog⟩ := key d h
    obtain ⟨heq', hlog'⟩ := key d' (lt_trans h hlt)
    rw [heq, heq']
    apply one_div_lt_one_div_of_lt (by linarith)
    have : Real.log (1 + (d : ℝ)) < Real.log (1 + (d' : ℝ)) := by
      apply Real.log_lt_log (by positivity)
      have : (d : ℝ) < (d' : ℝ) := by exact_mod_cast hlt
      linarith
    linarith

theorem computeUrgency_spec_witness :
    computeUrgency (-3) = 1 ∧ (0 < computeUrgency 2 ∧ computeUrgency 2 < 1)
      ∧ computeUrgency 7 < computeUrgency 2 :=
  ⟨(computeUrgency_spec (-3)).1 (by decide),
   ((computeUrgency_spec 2).2.1 (by decide)).2,
   (computeUrgency_spec 2).2.2 7 (by decide) (by decide)⟩

/-- Claim C5: a settled loan (principal at most the epsilon) scores the
sentinel minimum -1e15 whatever its other attributes and the inflation rate,
and no settled loan ever appears among the rows of a displayPriorities
listing. -/
theorem settled_sentinel_and_hidden (L : Loan) (r : ℚ) (h : L.principal ≤ eps) :
    computePriority L r = -1e15
    ∧ ∀ (s : SchedState) (entries : List (ℝ × Loan)) (sc : ℝ),
        displayPriorities s = .shown entries → (sc, L) ∉ entries := by
  constructor
  · unfold computePriority
    rw [if_pos h]
  · intro s entries sc heq hmem
    unfold displayPriorities at heq
    split at heq
    · simp at heq
    · split at heq
      · simp at heq
      · cases heq
        have := (List.mem_filter.mp hmem).2
        simp only [decide_eq_true_eq] at this
        exact this h

theorem settled_sentinel_and_hidden_witness :
    (mkShellLoan 1 "Z" 0 12 30 50 (1/2) false).principal ≤ eps ∧
      computePriority (mkShellLoan 1 "Z" 0 12 30 50 (1/2) false) (1/20) = -1e15 :=
  ⟨by norm_num [eps, mkShellLoan],
   (settled_sentinel_and_hidden _ (1/20) (by norm_num [eps, mkShellLoan])).1⟩

/-- Claim C10: a loan built by the interactive shell always carries
inflationSensitivity = 0 (the constructor default, never prompted for), so
its priority score does not depend on the inflation rate of the scheduler,
whatever the variable-rate flag. -/
theorem shellLoan_score_inflation_independent (i : ℤ) (nm : String)
    (principal rate : ℚ) (days : ℤ) (fee credit : ℚ) (varFlag : Bool) (r1 r2 : ℚ) :
    (mkShellLoan i nm principal rate days fee credit varFlag).inflationSensitivity = 0
    ∧ computePriority (mkShellLoan i nm principal rate days fee credit varFlag) r1
        = computePriority (mkShellLoan i nm principal rate days fee credit varFlag) r2 := by
  refine ⟨rfl, ?_⟩
  unfold computePriority mkShellLoan
  simp

/-- Claim C6: for a non-settled loan, with every other attribute and the
inflation rate fixed, raising the annual rate never lowers the priority
score, and raising the late fee never lowers it either. -/
theorem priority_monotone_rate_fee (L : Loan) (r : ℚ) (h : eps < L.principal) :
    (∀ a a' : ℚ, a ≤ a' →
      computePriority { L with annualRate := a } r
        ≤ computePriority { L with annualRate := a' } r)
    ∧ (∀ f f' : ℚ, f ≤ f' →
      computePriority { L with lateFee := f } r
        ≤ computePriority { L with lateFee := f' } r) := by
  have hp0 : (0 : ℚ) < L.principal := lt_trans (by norm_num [eps]) h
  have hpR : (0 : ℝ) ≤ (L.principal : ℝ) / 1000 := by
    have : (0 : ℝ) < (L.principal : ℝ) := by exact_mod_cast hp0
    positivity
  have hu : (0 : ℝ) ≤ computeUrgency L.daysUntilDue := (computeUrgency_pos _).le
  have hboost : (0 : ℝ) ≤ if L.daysUntilDue ≤ 5 then (1.25 : ℝ) else 1 := by
    split <;> norm_num
  constructor
  · intro a a' haa
    rw [computePriority_active { L with annualRate := a } r (not_le.mpr h),
      computePriority_active { L with annualRate := a' } r (not_le.mpr h)]
    dsimp only
    have hcast : (a : ℝ) ≤ (a' : ℝ) := by exact_mod_cast haa
    gcongr
  · intro f f' hff
    rw [computePriority_active { L with lateFee := f } r (not_le.mpr h),
      computePriority_active { L with lateFee := f' } r (not_le.mpr h)]
    dsimp only
    have hclamp : ((clamp (f / max 1 L.principal) 0 5000 : ℚ) : ℝ)
        ≤ ((clamp (f' / max 1 L.principal) 0 5000 : ℚ) : ℝ) := by
      have hden : (0 : ℚ) < max 1 L.principal := lt_max_of_lt_left one_pos
      have hdiv : f / max 1 L.principal ≤ f' / max 1 L.principal :=
        (div_le_div_iff_of_pos_right hden).mpr hff
      exact_mod_cast max_le_max le_rfl (min_le_min hdiv le_rfl)
    gcongr

theorem priority_monotone_rate_fee_witness :
    computePriority { mkShellLoan 1 "A" 100 12 30 50 (1/2) false with annualRate := 10 } (1/20)
      ≤ computePriority { mkShellLoan 1 "A" 100 12 30 50 (1/2) false with annualRate := 12 } (1/20)
    ∧ computePriority { mkShellLoan 1 "A" 100 12 30 50 (1/2) false with lateFee := 40 } (1/20)
      ≤ computePriority { mkShellLoan 1 "A" 100 12 30 50 (1/2) false with lateFee := 60 } (1/20) :=
  ⟨(priority_monotone_rate_fee _ (1/20) (by norm_num [eps, mkShellLoan])).1 10 12 (by norm_num),
   (priority_monotone_rate_fee _ (1/20) (by norm_num [eps, mkShellLoan])).2 40 60 (by norm_num)⟩

/-! Helper lemmas about the allocation loop. -/

/-- The write-back never changes the length of the master list. -/
theorem updateFirstById_length (l : List Loan) (i : ℤ) (p : ℚ) :
    (updateFirstById l i p).length = l.length := by
  induction l with
  | nil => rfl
  | cons L rest ih =>
    unfold updateFirstById
    split <;> simp [ih]

/-- The write-back of a non-negative principal keeps every principal of a
non-negative list non-negative. -/
theorem updateFirstById_nonneg (l : List Loan) (i : ℤ) (p : ℚ) (hp : 0 ≤ p)
    (h : ∀ L ∈ l, 0 ≤ L.principal) :
    ∀ L ∈ updateFirstById l i p, 0 ≤ L.principal := by
  induction l with
  | nil => intro L hL; simp [updateFirstById] at hL
  | cons M rest ih =>
    intro L hL
    unfold updateFirstById at hL
    split at hL
    · rcases List.mem_cons.mp hL with h1 | h1
      · subst h1; exact hp
      · exact h L (List.mem_cons_of_mem _ h1)
    · rcases List.mem_cons.mp hL with h1 | h1
      · subst h1; exact h L (List.mem_cons_self _ _)
      · exact ih (fun M' hM' => h M' (List.mem_cons_of_mem _ hM')) L h1

/-- Cash conservation invariant of the loop: on any completed run the total
of the produced trace plus the leftover equals the starting amount plus the
total already in the accumulator. -/
theorem allocLoop_conserves (infl : ℚ) :
    ∀ (fuel : ℕ) (amount : ℚ) (loans : List Loan) (trace : List TraceEntry)
      (tr : List TraceEntry) (left : ℚ) (fin : List Loan),
      allocLoop infl fuel amount loans trace = .done tr left fin →
      sumPaid tr + left = amount + sumPaid trace := by
  intro fuel
  induction fuel with
  | zero =>
    intro amount loans trace tr left fin h
    simp [allocLoop] at h
  | succ n ih =>
    intro amount loans trace tr left fin h
    rw [allocLoop] at h
    split at h
    · split at h
      · cases h
        simp [sumPaid, List.sum_reverse, add_comm]
      · have := ih _ _ _ _ _ _ h
        simp only [sumPaid, List.map_cons, List.sum_cons] at this ⊢
        linarith
    · cases h
      simp [sumPaid, List.sum_reverse, add_comm]

/-- Non-negativity invariant of the loop: starting from a master list with
non-negative principals, the master list carried by the outcome (completed
or fuel-exhausted) still has only non-negative principals. -/
theorem allocLoop_nonneg (infl : ℚ) :
    ∀ (fuel : ℕ) (amount : ℚ) (loans : List Loan) (trace : List TraceEntry),
      (∀ L ∈ loans, 0 ≤ L.principal) →
      ∀ (tr : List TraceEntry) (a : ℚ) (fin : List Loan),
        (allocLoop infl fuel amount loans trace = .done tr a fin
          ∨ allocLoop infl fuel amount loans trace = .outOfFuel tr a fin) →
        ∀ L' ∈ fin, 0 ≤ L'.principal := by
  intro fuel
  induction fuel with
  | zero =>
    intro amount loans trace h tr a fin hres
    rcases hres with hres | hres <;> rw [allocLoop] at hres <;> cases hres <;> exact h
  | succ n ih =>
    intro amount loans trace h tr a fin hres
    rcases hres with hres | hres <;> rw [allocLoop] at hres <;> split at hres
    · rename_i hcond
      cases hm : loans.argmax (fun L => computePriority L infl) with
      | none => rw [hm] at hres; cases hres; exact h
      | some L =>
        rw [hm] at hres
        refine ih _ _ _ ?_ _ _ _ (Or.inl hres)
        exact updateFirstById_nonneg _ _ _ (sub_nonneg.mpr (min_le_right _ _)) h
    · cases hres; exact h
    · rename_i hcond
      cases hm : loans.argmax (fun L => computePriority L infl) with
      | none => rw [hm] at hres; cases hres
      | some L =>
        rw [hm] at hres
        refine ih _ _ _ ?_ _ _ _ (Or.inr hres)
        exact updateFirstById_nonneg _ _ _ (sub_nonneg.mpr (min_le_right _ _)) h
    · cases hres

/-- Once the only loan has principal exactly 0 while the amount is still
positive, every iteration pays 0 and the loop never completes: whatever the
fuel, the outcome is fuel exhaustion. -/
theorem allocLoop_stuck (infl : ℚ) (L : Loan) (hL : L.principal = 0) (amount : ℚ)
    (hpos : 0 < amount) :
    ∀ (fuel : ℕ) (trace : List TraceEntry),
      (allocLoop infl fuel amount [L] trace).isDone = false := by
  intro fuel
  induction fuel with
  | zero => intro trace; simp [allocLoop, AllocResult.isDone]
  | succ n ih =>
    intro trace
    rw [allocLoop, if_pos ⟨hpos, by simp⟩, List.argmax_singleton]
    have h1 : min amount L.principal = 0 := by rw [hL]; exact min_eq_right hpos.le
    have h2 : updateFirstById [L] L.id (L.principal - min amount L.principal) = [L] := by
      rw [h1, sub_zero]
      unfold updateFirstById
      rw [if_pos rfl]
    show (allocLoop infl n (amount - min amount L.principal)
        (updateFirstById [L] L.id (L.principal - min amount L.principal))
        ({ loanName := L.name, amountPaid := min amount L.principal,
           remainingPrincipal := L.principal - min amount L.principal } :: trace)).isDone = false
    rw [h2, h1, sub_zero]
    exact ih _

/-- Claim C1 (refuting evaluation): allocatePayment(200) against the single
loan of principal 100 never completes, whatever fuel the loop is given: the
first iteration settles the loan, after which every iteration pays 0 without
decreasing the amount, because the rebuilt heap still contains the settled
loan and the loop only stops when the amount reaches 0.  The claimed all-settled exit
does not exist, and the leftover 100 is never
reported. -/
theorem allocatePayment_never_completes :
    ∀ fuel : ℕ, (allocatePayment fuel 200 sOne).isDone = false := by
  intro fuel
  unfold allocatePayment
  rw [if_neg (by simp [sOne]), if_neg (by norm_num)]
  show (allocLoop (1/20) fuel 200 [loanOne] []).isDone = false
  cases fuel with
  | zero => simp [allocLoop, AllocResult.isDone]
  | succ n =>
    rw [allocLoop, if_pos ⟨by norm_num, by simp⟩, List.argmax_singleton]
    show (allocLoop (1/20) n (200 - min 200 loanOne.principal)
        (updateFirstById [loanOne] loanOne.id (loanOne.principal - min 200 loanOne.principal))
        _).isDone = false
    have h1 : min (200:ℚ) loanOne.principal = 100 := by norm_num [loanOne]
    have h2 : updateFirstById [loanOne] loanOne.id (loanOne.principal - min 200 loanOne.principal)
        = [{ loanOne with principal := 0 }] := by
      rw [h1]
      norm_num [updateFirstById, loanOne]
    rw [h2, h1]
    norm_num
    exact allocLoop_stuck (1/20) { loanOne with principal := 0 } rfl 100 (by norm_num) n _

/-- Claim C2: whenever allocatePayment completes, the total paid across the
trace entries plus the reported leftover equals the input amount. -/
theorem allocatePayment_conserves_cash (fuel : ℕ) (amount : ℚ) (s : SchedState)
    (h0 : 0 ≤ amount) (hne : s.loans ≠ [])
    (tr : List TraceEntry) (left : ℚ) (fin : List Loan)
    (hrun : allocatePayment fuel amount s = .done tr left fin) :
    sumPaid tr + left = amount := by
  unfold allocatePayment at hrun
  rw [if_neg hne] at hrun
  split at hrun
  · cases hrun
  · have := allocLoop_conserves s.inflationRate fuel amount s.loans [] tr left fin hrun
    simpa [sumPaid] using this

/-- Evaluation of a completed run: paying 100 against the single loan of
principal 100 settles it in one iteration and exits with leftover 0. -/
theorem allocRunOne : allocatePayment 2 100 sOne =
    .done [{ loanName := "A", amountPaid := 100, remainingPrincipal := 0 }] 0
      [{ loanOne with principal := 0 }] := by
  unfold allocatePayment
  rw [if_neg (by simp [sOne]), if_neg (by norm_num)]
  show allocLoop (1/20) 2 100 [loanOne] [] = _
  rw [allocLoop, if_pos ⟨by norm_num, by simp⟩, List.argmax_singleton]
  show allocLoop (1/20) 1 (100 - min 100 loanOne.principal)
      (updateFirstById [loanOne] loanOne.id (loanOne.principal - min 100 loanOne.principal))
      [{ loanName := loanOne.name, amountPaid := min 100 loanOne.principal,
         remainingPrincipal := loanOne.principal - min 100 loanOne.principal }] = _
  have h1 : min (100:ℚ) loanOne.principal = 100 := by norm_num [loanOne]
  have h2 : updateFirstById [loanOne] loanOne.id (loanOne.principal - min 100 loanOne.principal)
      = [{ loanOne with principal := 0 }] := by
    rw [h1]
    norm_num [updateFirstById, loanOne]
  rw [h2, h1]
  norm_num [loanOne]
  rw [allocLoop, if_neg (by norm_num)]
  simp

theorem allocatePayment_conserves_cash_witness :
    sumPaid [{ loanName := "A", amountPaid := 100, remainingPrincipal := 0 }] + 0 = 100 :=
  allocatePayment_conserves_cash 2 100 sOne (by norm_num) (by simp [sOne]) _ 0 _ allocRunOne

/-- Claim C8: if every principal in the collection is non-negative, then the
master list after allocatePayment (also after a fuel-exhausted partial run,
and unchanged on the early returns) again has only non-negative principals. -/
theorem allocatePayment_principals_nonneg (fuel : ℕ) (amount : ℚ) (s : SchedState)
    (h : ∀ L ∈ s.loans, 0 ≤ L.principal) :
    ∀ L' ∈ (allocatePayment fuel amount s).loansOut s.loans, 0 ≤ L'.principal := by
  unfold allocatePayment
  split
  · exact h
  · split
    · exact h
    · cases hres : allocLoop s.inflationRate fuel amount s.loans [] with
      | noLoans => exact h
      | invalidAmount => exact h
      | done tr a fin =>
        exact allocLoop_nonneg s.inflationRate fuel amount s.loans [] h tr a fin (Or.inl hres)
      | outOfFuel tr a fin =>
        exact allocLoop_nonneg s.inflationRate fuel amount s.loans [] h tr a fin (Or.inr hres)

theorem allocatePayment_principals_nonneg_witness :
    0 ≤ ({ loanOne with principal := 0 } : Loan).principal :=
  allocatePayment_principals_nonneg 2 100 sOne
    (by intro L hL; simp [sOne] at hL; simp [hL, loanOne])
    { loanOne with principal := 0 } (by rw [allocRunOne]; simp [AllocResult.loansOut])

/-- Claim C7 (refuting evaluation for the allocation half): on a non-empty
collection whose only loan is settled, displayPriorities does produce the
all-settled report, and that report is a different variant from the
no-loans report; but allocatePayment(1) on the same collection never
completes (each iteration pays 0 to the settled loan), so it reports
nothing at all instead of the claimed all-settled condition. -/
theorem allSettled_report_and_allocation_hang :
    displayPriorities sSettled = .allSettled
    ∧ DisplayResult.allSettled ≠ DisplayResult.noLoans
    ∧ ∀ fuel : ℕ, (allocatePayment fuel 1 sSettled).isDone = false := by
  refine ⟨?_, ⟨fun h => DisplayResult.noConfusion h, ?_⟩⟩
  · unfold displayPriorities
    rw [if_neg (by simp [sSettled])]
    rw [if_pos ?_]
    simp [displayEntries, heapList, sSettled, settledLoan, List.mergeSort_singleton, eps]
  · intro fuel
    unfold allocatePayment
    rw [if_neg (by simp [sSettled]), if_neg (by norm_num)]
    show (allocLoop (1/20) fuel 1 [settledLoan] []).isDone = false
    exact allocLoop_stuck (1/20) settledLoan rfl 1 (by norm_num) fuel []

/-- Claim C9: simulateDays(0) is the reported no-op with the state returned
untouched; for any non-zero day count, positive or negative, every loan has
exactly the day count subtracted from daysUntilDue (possibly going negative)
while every other field and the inflation rate stay as they were. -/
theorem simulateDays_spec (days : ℤ) (s : SchedState) :
    (days = 0 → simulateDays days s = .noOp s)
    ∧ (days ≠ 0 →
        (simulateDays days s).state.inflationRate = s.inflationRate
        ∧ List.Forall₂ (fun L L' =>
            L'.id = L.id ∧ L'.name = L.name ∧ L'.principal = L.principal
              ∧ L'.annualRate = L.annualRate
              ∧ L'.daysUntilDue = L.daysUntilDue - days
              ∧ L'.lateFee = L.lateFee ∧ L'.creditFactor = L.creditFactor
              ∧ L'.variableRate = L.variableRate
              ∧ L'.inflationSensitivity = L.inflationSensitivity)
          s.loans (simulateDays days s).state.loans) := by
  constructor
  · intro h
    unfold simulateDays
    rw [if_pos h]
  · intro h
    unfold simulateDays
    rw [if_neg h]
    refine ⟨rfl, ?_⟩
    show List.Forall₂ _ s.loans (s.loans.map _)
    rw [List.forall₂_map_right_iff]
    exact List.forall₂_same.mpr fun L hL => ⟨rfl, rfl, rfl, rfl, rfl, rfl, rfl, rfl, rfl⟩

theorem simulateDays_spec_witness :
    simulateDays 0 sOne = .noOp sOne
    ∧ (simulateDays (-10) sOne).state.inflationRate = sOne.inflationRate :=
  ⟨(simulateDays_spec 0 sOne).1 rfl, ((simulateDays_spec (-10) sOne).2 (by decide)).1⟩
